import Mathlib

/-!
Verification of the developerDebugDisplay display core.

A shallow embedding of `src/DisplayInterface/TreeView.cpp` and
`src/DisplayInterface/DisplayInterface.cpp`.

* Scene-graph nodes (osg nodes) are records in a `Store` (a list indexed by
  node id) carrying a visibility mask, group capability and child node ids.
* Tree-view items (`d3DisplayItem`) form a functional tree; the item's node is
  a node id into the store, so node sharing and in-place mask mutation are
  modelled faithfully.
* The startup rendezvous of `DisplayInterface` is modelled as an interleaving
  transition system over explicit thread program counters, a mutex flag and
  condition-variable parking encoded in the program counters.
-/

set_option maxHeartbeats 2000000
set_option maxRecDepth 4000

/-- One scene-graph node: its visibility mask (`osg::Node::NodeMask`, here a
natural number; `0` is the fully-hidden value), whether it is group-capable
(`asGroup()` non-null), and its scene-graph children (node ids). -/
structure NodeData where
  mask : Nat
  isGroup : Bool
  children : List Nat
deriving Repr, DecidableEq

instance : Inhabited NodeData := ⟨⟨0, false, []⟩⟩

/-- The scene-node store: node ids are list indices. -/
abbrev Store := List NodeData

def getNodeData (s : Store) (i : Nat) : NodeData := s.getD i default

/-- `node->getNodeMask()`. -/
def getMask (s : Store) (i : Nat) : Nat := (getNodeData s i).mask

/-- `node->asGroup() != nullptr`. -/
def isGroup (s : Store) (i : Nat) : Bool := (getNodeData s i).isGroup

/-- `node->setNodeMask(m)`. -/
def setMask (s : Store) (i : Nat) (m : Nat) : Store :=
  s.set i { getNodeData s i with mask := m }

/-- `group->addChild(c)`. -/
def addChild (s : Store) (g c : Nat) : Store :=
  s.set g { getNodeData s g with children := (getNodeData s g).children ++ [c] }

/-- `group->removeChild(c)` (removes the first occurrence). -/
def removeChild (s : Store) (g c : Nat) : Store :=
  s.set g { getNodeData s g with children := (getNodeData s g).children.erase c }

/-- The default `osg::Node` mask, `~0` on 32 bits (fresh `osg::Group`s and the
root group start with it). -/
def defaultMask : Nat := 4294967295

/-- `TreeView::d3DisplayItem` (TreeView.h): display name, full path, node id,
remembered prior node mask, checked state (`true` = `Qt::Checked`), enabled
flag, and child items (model rows).  The click callbacks mutate none of the
modelled state (the defaults are no-ops) and are omitted. -/
inductive Item : Type where
  | mk (name path : String) (nodeId prior : Nat) (checked enabled : Bool)
      (children : List Item)

instance : Inhabited Item := ⟨.mk ("") ("") 0 0 false false []⟩

def Item.name : Item → String
  | .mk n _ _ _ _ _ _ => n

def Item.path : Item → String
  | .mk _ p _ _ _ _ _ => p

def Item.nodeId : Item → Nat
  | .mk _ _ i _ _ _ _ => i

def Item.prior : Item → Nat
  | .mk _ _ _ pr _ _ _ => pr

def Item.checked : Item → Bool
  | .mk _ _ _ _ c _ _ => c

def Item.enabled : Item → Bool
  | .mk _ _ _ _ _ e _ => e

def Item.children : Item → List Item
  | .mk _ _ _ _ _ _ ch => ch

/-- `item->setCheckState(...)` (the Qt toggle that happens before the
`clicked` slot runs). -/
def Item.setChecked : Item → Bool → Item
  | .mk n p i pr _ e ch, c => .mk n p i pr c e ch

/-- `parent->appendRow(entry)`. -/
def Item.appendChild : Item → Item → Item
  | .mk n p i pr c e ch, x => .mk n p i pr c e (ch ++ [x])

/-- Replace the child row at index `j`. -/
def Item.setChild : Item → Nat → Item → Item
  | .mk n p i pr c e ch, j, x => .mk n p i pr c e (ch.set j x)

def childAt (parent : Item) (i : Nat) : Item := parent.children.getD i default

mutual
/-- `TreeView::updateChildren` (TreeView.cpp 447-477): set the enabled flag to
the toggled ancestor's state, recurse into the children iff this item is
itself checked, then resolve this item's node mask / prior mask. -/
def updateChildren (s : Store) (it : Item) (checked : Bool) : Store × Item :=
  match it with
  | .mk n p nid prior chk _ ch =>
    let res := if chk then updateChildrenList s ch checked else (s, ch)
    if checked && chk then
      (setMask res.1 nid prior, .mk n p nid prior chk checked res.2)
    else if chk then
      (setMask res.1 nid 0, .mk n p nid (getMask res.1 nid) chk checked res.2)
    else
      (setMask res.1 nid 0, .mk n p nid prior chk checked res.2)

/-- The `while (true)` loop of `TreeView::updateChildren`, processing the child
rows in order and threading the scene store. -/
def updateChildrenList (s : Store) (l : List Item) (checked : Bool) :
    Store × List Item :=
  match l with
  | [] => (s, [])
  | x :: xs =>
    let r1 := updateChildren s x checked
    let r2 := updateChildrenList r1.1 xs checked
    (r2.1, r1.2 :: r2.2)
end

/-- `TreeView::clicked` slot (TreeView.cpp 141-186): the item's check state has
already been toggled by Qt; resolve this item's mask (restoring or saving the
prior mask depending on checked/enabled), then propagate to all child rows
with `updateChildren(child, checked-state-of-this-item)`. -/
def clicked (s : Store) (it : Item) : Store × Item :=
  match it with
  | .mk n p nid prior chk en ch =>
    let sp :=
      if chk then (setMask s nid (if en then prior else 0), prior)
      else (setMask s nid 0, if en then getMask s nid else prior)
    let r := updateChildrenList sp.1 ch chk
    (r.1, .mk n p nid sp.2 chk en r.2)

/-- `TreeView::findChild` (TreeView.cpp 432-443): index of the first child row
whose name matches. -/
def findChildIdx (parent : Item) (name : String) : Option Nat :=
  parent.children.findIdx? (fun c => c.name == name)

/-- `name.find("::")` / `substr` splitting of `TreeView::add`, iterated: the
list of `::`-separated path segments, scanning left to right. -/
def splitSegsAux : List Char → List Char → List String
  | [], acc => [String.mk acc.reverse]
  | ':' :: ':' :: rest, acc => String.mk acc.reverse :: splitSegsAux rest []
  | c :: rest, acc => splitSegsAux rest (c :: acc)

def splitSegs (nm : String) : List String := splitSegsAux nm.toList []

/-- `TreeView::createNewEntry` (TreeView.cpp 273-318): build the entry (the
`d3DisplayItem` constructor makes it checked with `prior` = the node's current
mask), set enabled, append the row, attach the node under the parent's group
iff `addToDisplay`, and if `showNode` is false uncheck the fresh entry and run
the `clicked` logic on it. -/
def createNewEntry (s : Store) (name path : String) (nid : Nat)
    (enableNode showNode addToDisplay : Bool) (parent : Item) : Store × Item :=
  let entry := Item.mk name path nid (getMask s nid) true enableNode []
  let s1 := if addToDisplay then addChild s parent.nodeId nid else s
  let r := if showNode then (s1, entry) else clicked s1 (entry.setChecked false)
  (r.1, parent.appendChild r.2)

/-- `TreeView::replaceNode` (TreeView.cpp 322-358): copy the existing node's
current mask onto the new node, remove the old node from the parent's group and
attach the new one iff `addToDisplay`, and update the entry's node id and
enabled flag (checked state, prior mask and child rows are untouched). -/
def replaceNode (s : Store) (entry : Item) (nid : Nat)
    (enableNode addToDisplay : Bool) (parent : Item) : Store × Item :=
  let s1 := setMask s nid (getMask s entry.nodeId)
  let s2 := if addToDisplay then removeChild s1 parent.nodeId entry.nodeId else s1
  let entry' :=
    match entry with
    | .mk n p _ pr c _ ch => Item.mk n p nid pr c enableNode ch
  let s3 := if addToDisplay then addChild s2 parent.nodeId nid else s2
  (s3, entry')

/-- The private `TreeView::add` (TreeView.cpp 212-269) together with
`TreeView::addParent` (362-428), recursing over the `::`-separated segments of
the name (the source splits off one segment per recursive call).  With more
than one segment left this is `addParent`: find or create the group child named
by the head segment (a fresh node id appended to the store, a fresh
`osg::Group`, attached under the parent's group and always group-capable, so
the source's group check succeeds on it), reject without mutation when the
existing child's node is not group-capable, else recurse.  With one segment
this is the leaf case: create a new entry or replace the existing one. -/
def addSegs (s : Store) (segs : List String) (path : String) (nid : Nat)
    (enableNode showNode addToDisplay : Bool) (parent : Item) :
    Store × Item × Bool :=
  match segs with
  | [] => (s, parent, false)
  | [name] =>
    match findChildIdx parent name with
    | none =>
      let r := createNewEntry s name path nid enableNode showNode addToDisplay
        parent
      (r.1, r.2, true)
    | some i =>
      let r := replaceNode s (childAt parent i) nid enableNode addToDisplay
        parent
      (r.1, parent.setChild i r.2, true)
  | pre :: rest =>
    match findChildIdx parent pre with
    | some i =>
      if isGroup s (childAt parent i).nodeId then
        let r := addSegs s rest path nid enableNode showNode addToDisplay
          (childAt parent i)
        (r.1, parent.setChild i r.2.1, r.2.2)
      else
        (s, parent, false)
    | none =>
      let gid := s.length
      let s1 := s ++ [⟨defaultMask, true, []⟩]
      let entry := Item.mk pre path gid defaultMask true true []
      let s2 := addChild s1 parent.nodeId gid
      let r := addSegs s2 rest path nid enableNode showNode addToDisplay entry
      (r.1, parent.appendChild r.2.1, r.2.2)

/-- The public `TreeView::add` (TreeView.cpp 99-133): `enableNode` is the
static `true`, `path` is the full name, and the walk starts at the synthetic
root item. -/
def treeAdd (s : Store) (name : String) (nid : Nat)
    (showNode addToDisplay : Bool) (root : Item) : Store × Item × Bool :=
  addSegs s (splitSegs name) name nid true showNode addToDisplay root

/-- The root group node installed by `TreeView::setOsgWidget`. -/
def rootGroupNode : NodeData := ⟨defaultMask, true, []⟩

/-- The synthetic root item "All Displayed Items" (TreeView.cpp 81-85),
wrapping the root group (node id 0). -/
def rootItem : Item :=
  Item.mk ("All Displayed Items") ("All Displayed Items") 0 defaultMask true
    true []

/-! ## Claim C1: path round-trip and leaf replacement -/

/-- Initial store for the round-trip scenario: the root group (id 0) and the
caller's node `nodeX` (id 1) with an arbitrary mask `mX`. -/
def c1Store (mX : Nat) : Store := [rootGroupNode, ⟨mX, false, []⟩]

/-- The first `add("A::B::leaf", nodeX)` on the initially-empty tree. -/
def c1First (mX : Nat) : Store × Item × Bool :=
  treeAdd (c1Store mX) ("A::B::leaf") 1 true true rootItem

/-- The second `add` with the same path and a different node (id 4, mask `m2`,
appended to the store by the caller). -/
def c1Second (mX m2 : Nat) : Store × Item × Bool :=
  treeAdd ((c1First mX).1 ++ [⟨m2, false, []⟩]) ("A::B::leaf") 4 true true
    (c1First mX).2.1

/-- C1: on an initially-empty tree, `add("A::B::leaf", nodeX)` succeeds and
produces exactly one item chain A -> B -> leaf under the synthetic root, with A
and B backed by group-capable nodes (ids 2 and 3, attached 0 -> 2 -> 3 in the
scene graph) and leaf holding nodeX (id 1); the second `add` with the same path
and a different node (id 4) succeeds, replaces the leaf item's node id with 4,
leaves the leaf's checked state unchanged, copies the old node's visibility
mask `mX` onto the new node, and swaps node 4 in under B's group. -/
theorem c1_path_roundtrip_replace (mX m2 : Nat) :
    (c1First mX).2.2 = true ∧
    ((c1First mX).2.1).children.map Item.name = [("A")] ∧
    (childAt ((c1First mX).2.1) 0).nodeId = 2 ∧
    (childAt ((c1First mX).2.1) 0).children.map Item.name = [("B")] ∧
    (childAt (childAt ((c1First mX).2.1) 0) 0).nodeId = 3 ∧
    (childAt (childAt ((c1First mX).2.1) 0) 0).children.map Item.name =
      [("leaf")] ∧
    (childAt (childAt (childAt ((c1First mX).2.1) 0) 0) 0).nodeId = 1 ∧
    (childAt (childAt (childAt ((c1First mX).2.1) 0) 0) 0).checked = true ∧
    isGroup (c1First mX).1 2 = true ∧
    isGroup (c1First mX).1 3 = true ∧
    (getNodeData (c1First mX).1 0).children = [2] ∧
    (getNodeData (c1First mX).1 2).children = [3] ∧
    (getNodeData (c1First mX).1 3).children = [1] ∧
    (c1Second mX m2).2.2 = true ∧
    (childAt (childAt (childAt ((c1Second mX m2).2.1) 0) 0) 0).nodeId = 4 ∧
    (childAt (childAt (childAt ((c1Second mX m2).2.1) 0) 0) 0).checked =
      true ∧
    getMask (c1Second mX m2).1 4 = mX ∧
    (getNodeData (c1Second mX m2).1 3).children = [4] :=
  ⟨rfl, rfl, rfl, rfl, rfl, rfl, rfl, rfl, rfl, rfl, rfl, rfl, rfl, rfl, rfl,
   rfl, rfl, rfl⟩

/-! ## Claim C2: ancestor toggle preserves descendants' individual state -/

/-- Store for the propagation scenario: parent node P (id 0, mask `mp`, group
over its children's nodes), child nodes C1 (id 1, mask `m1`) and C2 (id 2,
mask `m2`). -/
def c2Store (mp m1 m2 : Nat) : Store :=
  [⟨mp, true, [1, 2]⟩, ⟨m1, false, []⟩, ⟨m2, false, []⟩]

/-- Individually unchecking child C1 (the user toggles its checkbox off and the
`clicked` slot runs). -/
def c2Step1 (mp m1 m2 pr1 : Nat) : Store × Item :=
  clicked (c2Store mp m1 m2)
    ((Item.mk ("C1") ("P::C1") 1 pr1 true true []).setChecked false)

/-- The parent item P after C1's individual uncheck, over children C1 and C2. -/
def c2Parent (mp m1 m2 pr1 pr2 prP : Nat) : Item :=
  Item.mk ("P") ("P") 0 prP true true
    [(c2Step1 mp m1 m2 pr1).2, Item.mk ("C2") ("P::C2") 2 pr2 true true []]

/-- Unchecking parent P. -/
def c2Step2 (mp m1 m2 pr1 pr2 prP : Nat) : Store × Item :=
  clicked (c2Step1 mp m1 m2 pr1).1
    ((c2Parent mp m1 m2 pr1 pr2 prP).setChecked false)

/-- Rechecking parent P. -/
def c2Step3 (mp m1 m2 pr1 pr2 prP : Nat) : Store × Item :=
  clicked (c2Step2 mp m1 m2 pr1 pr2 prP).1
    ((c2Step2 mp m1 m2 pr1 pr2 prP).2.setChecked true)

/-- C2: with parent P over children C1 and C2 (all initially checked, enabled
and visible), individually unchecking C1 via the clicked transition, then
unchecking P, then rechecking P restores C2's node mask to its remembered
prior mask `m2` (the visible mask it had when P was unchecked) and leaves C1's
node mask at the fully-hidden value 0; C1's own remembered prior mask `m1`
(saved at its individual uncheck) is not overridden by the ancestor toggle,
and P's own mask round-trips back to `mp`. -/
theorem c2_visibility_propagation (mp m1 m2 pr1 pr2 prP : Nat) :
    getMask (c2Step3 mp m1 m2 pr1 pr2 prP).1 2 = m2 ∧
    getMask (c2Step3 mp m1 m2 pr1 pr2 prP).1 1 = 0 ∧
    (childAt (c2Step3 mp m1 m2 pr1 pr2 prP).2 0).prior = m1 ∧
    (childAt (c2Step3 mp m1 m2 pr1 pr2 prP).2 0).checked = false ∧
    (childAt (c2Step3 mp m1 m2 pr1 pr2 prP).2 1).checked = true ∧
    getMask (c2Step3 mp m1 m2 pr1 pr2 prP).1 0 = mp :=
  ⟨rfl, rfl, rfl, rfl, rfl, rfl⟩

/-! ## Claim C3: adding a leaf at an existing group path -/

/-- Store for the group-conflict scenario: the root group (id 0) and two
unrelated leaf nodes (ids 1 and 2). -/
def c3Store : Store := [rootGroupNode, ⟨10, false, []⟩, ⟨20, false, []⟩]

/-- `add("X::Y", node1)`: creates group item X (fresh group node id 3) with
leaf Y (node 1) beneath it. -/
def c3First : Store × Item × Bool := treeAdd c3Store ("X::Y") 1 true true rootItem

/-- The subsequent `add("X", node2)` with a second, unrelated leaf node. -/
def c3Second : Store × Item × Bool :=
  treeAdd c3First.1 ("X") 2 true true c3First.2.1

/-- C3 counterexample: after `add("X::Y", node1)`, the call `add("X", node2)`
is NOT rejected: the path "X" has no separator, so the source's leaf branch
finds the existing group item X and calls `replaceNode` on it.  The call
returns `true` (the claim says `false`), X's item now references node 2 instead
of its group node 3, the scene root's children change from `[3]` to `[2]`
(the group node, with Y's node still inside it, is detached), and node 2
receives the group node's mask — the existing X subtree is mutated. -/
theorem c3_group_conflict_counterexample :
    ¬ (c3Second.2.2 = false) ∧
    (childAt c3First.2.1 0).nodeId = 3 ∧
    (childAt c3Second.2.1 0).nodeId = 2 ∧
    (getNodeData c3First.1 0).children = [3] ∧
    (getNodeData c3Second.1 0).children = [2] ∧
    getMask c3Second.1 2 = defaultMask :=
  ⟨fun h => absurd h (by decide), rfl, rfl, rfl, rfl, rfl⟩

/-- C3 amended: adding a leaf with path "X" when X already exists as a group
item is treated as a leaf replacement, not rejected: it returns `true`, swaps
X's group node (id 3) out of the scene root for the new node (id 2), copies the
group node's mask onto the new node, and keeps X's child items (Y survives as
an item).  The rejection-without-mutation of the original claim applies to the
converse situation: extending a path *through* an existing item whose node is
not group-capable (`addParent`'s group check) returns `false` and leaves the
store and the item tree completely unmutated. -/
theorem c3_group_conflict_amended (s : Store) (root : Item) (nm r : String)
    (rest : List String) (i : Nat) (path : String) (nid : Nat) (en sh ad : Bool)
    (hfind : findChildIdx root nm = some i)
    (hgroup : isGroup s (childAt root i).nodeId = false) :
    c3Second.2.2 = true ∧
    (childAt c3Second.2.1 0).nodeId = 2 ∧
    (childAt c3Second.2.1 0).children.map Item.name = [("Y")] ∧
    (getNodeData c3Second.1 0).children = [2] ∧
    getMask c3Second.1 2 = defaultMask ∧
    addSegs s (nm :: r :: rest) path nid en sh ad root = (s, root, false) := by
  refine ⟨rfl, rfl, rfl, rfl, rfl, ?_⟩
  simp [addSegs, hfind, hgroup]

/-- Witness for the amended C3 theorem: a tree whose root has the single leaf
item "W" (node 1, not group-capable); `add("W::Z", node2)` is rejected with no
mutation. -/
theorem c3_group_conflict_amended_witness :
    treeAdd (treeAdd c3Store ("W") 1 true true rootItem).1 ("W::Z") 2 true
      true (treeAdd c3Store ("W") 1 true true rootItem).2.1 =
    ((treeAdd c3Store ("W") 1 true true rootItem).1,
     (treeAdd c3Store ("W") 1 true true rootItem).2.1, false) :=
  (c3_group_conflict_amended
    (treeAdd c3Store ("W") 1 true true rootItem).1
    (treeAdd c3Store ("W") 1 true true rootItem).2.1
    ("W") ("Z") [] 0 ("W::Z") 2 true true true rfl rfl).2.2.2.2.2

/-! ## Infrastructure: node ids written by the propagation, frame lemmas -/

theorem getMask_setMask_ne (s : Store) (i j m : Nat) (h : j ≠ i) :
    getMask (setMask s i m) j = getMask s j := by
  simp [getMask, getNodeData, setMask, List.getD_eq_getElem?_getD,
    List.getElem?_set_ne (Ne.symm h)]

theorem getMask_setMask_self (s : Store) (i m : Nat) (h : i < s.length) :
    getMask (setMask s i m) i = m := by
  simp [getMask, getNodeData, setMask, List.getD_eq_getElem?_getD,
    List.getElem?_set_self h]

theorem setMask_length (s : Store) (i m : Nat) :
    (setMask s i m).length = s.length := by
  simp [setMask]

mutual
/-- All node ids referenced in an item's subtree. -/
def itemIds : Item → List Nat
  | .mk _ _ nid _ _ _ ch => nid :: itemIdsList ch

def itemIdsList : List Item → List Nat
  | [] => []
  | x :: xs => itemIds x ++ itemIdsList xs
end

mutual
/-- The node ids `updateChildren` visits (and whose masks it may write): the
item's own node and, iff the item is checked, recursively those of its
children — the recursion of the source stops below unchecked items. -/
def touchedIds : Item → List Nat
  | .mk _ _ nid _ chk _ ch => nid :: (if chk then touchedIdsList ch else [])

def touchedIdsList : List Item → List Nat
  | [] => []
  | x :: xs => touchedIds x ++ touchedIdsList xs
end

/-- Structural induction for `Item` providing the induction hypothesis
pointwise on the children list. -/
theorem item_ind {P : Item → Prop}
    (h : ∀ n p nid pr chk en ch, (∀ x ∈ ch, P x) →
      P (Item.mk n p nid pr chk en ch)) : ∀ it, P it := by
  intro it
  refine @Item.rec (fun i => P i) (fun l => ∀ x ∈ l, P x) ?_ ?_ ?_ it
  · intro n p nid pr chk en ch ih
    exact h n p nid pr chk en ch ih
  · intro x hx
    exact absurd hx (List.not_mem_nil x)
  · intro y l hy hl x hx
    cases hx with
    | head => exact hy
    | tail _ h2 => exact hl x h2

/-- The list-level frame property, given the item-level one pointwise. -/
theorem updateChildrenList_frame (c : Bool) (j : Nat) (l : List Item)
    (hpt : ∀ x ∈ l, ∀ s, j ∉ touchedIds x →
      getMask (updateChildren s x c).1 j = getMask s j) :
    ∀ s, j ∉ touchedIdsList l →
      getMask (updateChildrenList s l c).1 j = getMask s j := by
  induction l with
  | nil => intro s _; rfl
  | cons x xs ih =>
    intro s hj
    have hjx : j ∉ touchedIds x := fun h =>
      hj (by simp [touchedIdsList, h])
    have hjxs : j ∉ touchedIdsList xs := fun h =>
      hj (by simp [touchedIdsList, h])
    calc getMask (updateChildrenList s (x :: xs) c).1 j
        = getMask (updateChildrenList (updateChildren s x c).1 xs c).1 j := rfl
      _ = getMask (updateChildren s x c).1 j :=
          ih (fun y hy => hpt y (List.mem_cons_of_mem _ hy)) _ hjxs
      _ = getMask s j := hpt x (List.mem_cons_self _ _) s hjx

/-- Frame lemma: `updateChildren` only writes masks of node ids it visits. -/
theorem updateChildren_frame (c : Bool) (j : Nat) :
    ∀ (it : Item) (s : Store), j ∉ touchedIds it →
      getMask (updateChildren s it c).1 j = getMask s j := by
  refine item_ind ?_
  intro n p nid pr chk en ch ih s hj
  have hjn : j ≠ nid := by
    intro e
    exact hj (by simp [touchedIds, e])
  cases chk with
  | false =>
    simp only [updateChildren, Bool.and_false, if_neg (by simp : ¬ (false = true))]
    simpa [updateChildren] using getMask_setMask_ne s nid j 0 hjn
  | true =>
    have hch : j ∉ touchedIdsList ch := by
      intro hm
      exact hj (by simp [touchedIds, hm])
    have hlist := updateChildrenList_frame c j ch ih s hch
    cases c with
    | true =>
      simpa [updateChildren, getMask_setMask_ne _ nid j _ hjn] using hlist
    | false =>
      simpa [updateChildren, getMask_setMask_ne _ nid j _ hjn] using hlist

/-- The mask `clicked` leaves on the clicked item's own node: on a transition
to checked, the remembered prior mask when enabled and 0 when disabled; on a
transition to unchecked, always 0.  Needs the item's node not to be aliased by
a node in its subtree rows, and a valid id. -/
theorem clicked_own_mask (s : Store) (it : Item)
    (hlen : it.nodeId < s.length)
    (hal : it.nodeId ∉ touchedIdsList it.children) :
    getMask (clicked s it).1 it.nodeId =
      if it.checked then (if it.enabled then it.prior else 0) else 0 := by
  cases it with
  | mk n p nid pr chk en ch =>
    simp only [Item.nodeId, Item.checked, Item.enabled, Item.prior,
      Item.children] at *
    have hframe : ∀ s' : Store,
        getMask (updateChildrenList s' ch chk).1 nid = getMask s' nid :=
      fun s' => updateChildrenList_frame chk nid ch
        (fun x _ s'' hx => updateChildren_frame chk nid x s'' hx) s' hal
    cases chk with
    | true =>
      show getMask (updateChildrenList (setMask s nid (if en then pr else 0))
        ch true).1 nid = _
      rw [hframe, getMask_setMask_self s nid _ hlen]
      simp
    | false =>
      show getMask (updateChildrenList (setMask s nid 0) ch false).1 nid = _
      rw [hframe, getMask_setMask_self s nid _ hlen]
      simp

/-- The prior mask `clicked` leaves on the item: saved from the node's current
mask exactly on an enabled transition to unchecked, otherwise untouched. -/
theorem clicked_own_prior (s : Store) (it : Item) :
    (clicked s it).2.prior =
      if it.checked then it.prior
      else (if it.enabled then getMask s it.nodeId else it.prior) := by
  cases it with
  | mk n p nid pr chk en ch =>
    cases chk <;> cases en <;> rfl

/-- `updateChildren` sets the visited item's enabled flag to the propagated
checked state. -/
theorem updateChildren_enabled (s : Store) (it : Item) (c : Bool) :
    ((updateChildren s it c).2).enabled = c := by
  cases it with
  | mk n p nid pr chk en ch =>
    simp only [updateChildren]
    split
    · rfl
    · split
      · rfl
      · rfl

/-- Every item produced by the child-propagation loop has its enabled flag set
to the propagated checked state. -/
theorem updateChildrenList_enabled (c : Bool) :
    ∀ (l : List Item) (s : Store), ∀ x ∈ (updateChildrenList s l c).2,
      x.enabled = c := by
  intro l
  induction l with
  | nil =>
    intro s x hx
    exact absurd hx (List.not_mem_nil x)
  | cons y ys ih =>
    intro s x hx
    cases hx with
    | head => exact updateChildren_enabled s y c
    | tail _ h2 => exact ih _ x h2

/-- Every direct child of the item returned by `clicked` has its enabled flag
set to the clicked item's (new) checked state. -/
theorem clicked_children_enabled (s : Store) (it : Item) :
    ∀ x ∈ (clicked s it).2.children, x.enabled = it.checked := by
  cases it with
  | mk n p nid pr chk en ch =>
    intro x hx
    exact updateChildrenList_enabled chk ch _ x hx

/-! ## Claim C5: the clicked mask/prior transitions -/

/-- C5: for every item (whose node id is valid and not aliased inside its own
subtree rows), the clicked transition to checked sets the item's node mask to
the remembered prior mask when the item is enabled and to the fully-hidden
value 0 when disabled; the clicked transition to unchecked saves the node's
current mask as the new remembered prior mask iff the item is enabled, and in
all cases sets the node mask to 0. -/
theorem c5_clicked_mask_transitions (s : Store) (it : Item)
    (hlen : it.nodeId < s.length)
    (hal : it.nodeId ∉ touchedIdsList it.children) :
    (it.checked = true → it.enabled = true →
      getMask (clicked s it).1 it.nodeId = it.prior) ∧
    (it.checked = true → it.enabled = false →
      getMask (clicked s it).1 it.nodeId = 0) ∧
    (it.checked = false → getMask (clicked s it).1 it.nodeId = 0) ∧
    (it.checked = false → it.enabled = true →
      (clicked s it).2.prior = getMask s it.nodeId) ∧
    (it.checked = false → it.enabled = false →
      (clicked s it).2.prior = it.prior) ∧
    (it.checked = true → (clicked s it).2.prior = it.prior) := by
  have hm := clicked_own_mask s it hlen hal
  have hp := clicked_own_prior s it
  refine ⟨?_, ?_, ?_, ?_, ?_, ?_⟩ <;> intro h1 <;>
    first
      | (intro h2; simp [h1, h2] at hm hp; assumption)
      | (simp [h1] at hm hp; assumption)

/-- Witness for C5: a checked, enabled leaf item with node id 0 (mask 7,
prior 5) in a one-node store: clicking restores the prior mask 5. -/
theorem c5_clicked_mask_transitions_witness :
    getMask (clicked [⟨7, false, []⟩]
      (Item.mk ("x") ("x") 0 5 true true [])).1 0 = 5 :=
  (c5_clicked_mask_transitions [⟨7, false, []⟩]
    (Item.mk ("x") ("x") 0 5 true true [])
    (by decide) (by simp [Item.children, touchedIdsList])).1 rfl rfl

/-! ## Claim C9: propagation disables children; a disabled check stays hidden -/

/-- C9: `updateChildren` sets the enabled flag of every item it is called on to
the propagated checked state, so after the clicked transition that unchecks a
parent every direct child of the parent is disabled; and a subsequent direct
clicked check of such a disabled child (checked toggled to true while enabled
is false) forces the child's node mask to the fully-hidden value 0 instead of
restoring its remembered prior mask. -/
theorem c9_updateChildren_disables (s : Store) (p child : Item) (c : Bool)
    (hp : p.checked = false)
    (hchk : child.checked = true) (hen : child.enabled = false)
    (hlen : child.nodeId < s.length)
    (hal : child.nodeId ∉ touchedIdsList child.children) :
    ((updateChildren s child c).2).enabled = c ∧
    (∀ x ∈ ((clicked s p).2).children, x.enabled = false) ∧
    getMask (clicked s child).1 child.nodeId = 0 := by
  refine ⟨updateChildren_enabled s child c, ?_, ?_⟩
  · intro x hx
    have := clicked_children_enabled s p x hx
    rwa [hp] at this
  · have hm := clicked_own_mask s child hlen hal
    rw [hchk, hen] at hm
    simpa using hm

/-- Witness for C9: parent "P" (unchecked) over child "ch" (checked but
disabled, node 1 with mask 9): after clicking P its child is disabled, and
clicking the disabled child leaves node 1 fully hidden. -/
theorem c9_updateChildren_disables_witness :
    getMask (clicked [⟨3, true, [1]⟩, ⟨9, false, []⟩]
      (Item.mk ("ch") ("P::ch") 1 5 true false [])).1 1 = 0 :=
  (c9_updateChildren_disables [⟨3, true, [1]⟩, ⟨9, false, []⟩]
    (Item.mk ("P") ("P") 0 3 false true
      [Item.mk ("ch") ("P::ch") 1 5 true false []])
    (Item.mk ("ch") ("P::ch") 1 5 true false []) false
    rfl rfl rfl (by decide) (by simp [Item.children, touchedIdsList])).2.2

/-! ## Claim C10: no recursion below unchecked items -/

/-- The item at a child-index path inside an item tree. -/
def itemAt : List Nat → Item → Option Item
  | [], it => some it
  | i :: rest, it =>
    match it.children.get? i with
    | some x => itemAt rest x
    | none => none

/-- Pointwise-to-list transfer of membership in subtree ids. -/
theorem mem_itemIdsList_of_mem {x : Item} {j : Nat} :
    ∀ {l : List Item}, x ∈ l → j ∈ itemIds x → j ∈ itemIdsList l := by
  intro l
  induction l with
  | nil => intro h; exact absurd h (List.not_mem_nil x)
  | cons y ys ih =>
    intro hx hj
    cases hx with
    | head => simp [itemIdsList]; exact Or.inl hj
    | tail _ h2 => simp [itemIdsList]; exact Or.inr (ih h2 hj)

/-- List version of `touchedIds_subset`, with the item property pointwise. -/
theorem touchedIdsList_subset_pt (j : Nat) (l : List Item)
    (hpt : ∀ x ∈ l, j ∈ touchedIds x → j ∈ itemIds x) :
    j ∈ touchedIdsList l → j ∈ itemIdsList l := by
  induction l with
  | nil => intro h; simp [touchedIdsList] at h
  | cons y ys ih =>
    intro h
    simp only [touchedIdsList, List.mem_append] at h
    simp only [itemIdsList, List.mem_append]
    rcases h with h | h
    · exact Or.inl (hpt y (List.mem_cons_self _ _) h)
    · exact Or.inr (ih (fun x hx => hpt x (List.mem_cons_of_mem _ hx)) h)

/-- Every id `updateChildren` may write occurs in the item's subtree. -/
theorem touchedIds_subset (j : Nat) :
    ∀ it : Item, j ∈ touchedIds it → j ∈ itemIds it := by
  refine item_ind ?_
  intro n p nid pr chk en ch ih hj
  simp only [touchedIds, List.mem_cons] at hj
  simp only [itemIds, List.mem_cons]
  rcases hj with h | h
  · exact Or.inl h
  · cases chk with
    | false => simp at h
    | true =>
      simp only [if_pos rfl] at h
      exact Or.inr (touchedIdsList_subset_pt j ch ih h)

theorem touchedIdsList_subset (j : Nat) (l : List Item) :
    j ∈ touchedIdsList l → j ∈ itemIdsList l :=
  touchedIdsList_subset_pt j l (fun x _ => touchedIds_subset j x)

/-- Ids of a subtree found by `itemAt` are ids of the whole tree. -/
theorem itemIds_of_itemAt :
    ∀ (q : List Nat) (it sub : Item), itemAt q it = some sub →
      ∀ j, j ∈ itemIds sub → j ∈ itemIds it := by
  intro q
  induction q with
  | nil =>
    intro it sub h j hj
    simp only [itemAt, Option.some.injEq] at h
    exact h ▸ hj
  | cons i rest ih =>
    intro it sub h j hj
    cases it with
    | mk n p nid pr chk en ch =>
      simp only [itemAt] at h
      cases hcg : (Item.children (Item.mk n p nid pr chk en ch)).get? i with
      | none => rw [hcg] at h; exact absurd h (by simp)
      | some x =>
        rw [hcg] at h
        have hx := ih x sub h j hj
        have hmem : x ∈ ch := List.get?_mem hcg
        simp only [itemIds, List.mem_cons]
        exact Or.inr (mem_itemIdsList_of_mem hmem hx)

/-- Nodup of flattened subtree ids restricts to each member subtree. -/
theorem nodup_itemIds_get :
    ∀ (l : List Item), (itemIdsList l).Nodup →
      ∀ (i : Nat) (x : Item), l.get? i = some x → (itemIds x).Nodup := by
  intro l
  induction l with
  | nil => intro _ i x h; simp at h
  | cons y ys ih =>
    intro hnd i x h
    simp only [itemIdsList] at hnd
    rw [List.nodup_append] at hnd
    cases i with
    | zero =>
      simp only [List.get?_cons_zero, Option.some.injEq] at h
      exact h ▸ hnd.1
    | succ k =>
      simp only [List.get?_cons_succ] at h
      exact ih hnd.2.1 k x h

/-- An id inside a subtree strictly below an unchecked item is never visited:
the recursion of `updateChildren` stops at unchecked items. -/
theorem not_mem_touchedIdsList (j : Nat) :
    ∀ (l : List Item) (i : Nat) (x : Item), (itemIdsList l).Nodup →
      l.get? i = some x → j ∈ itemIds x → j ∉ touchedIds x →
      j ∉ touchedIdsList l := by
  intro l
  induction l with
  | nil => intro i x _ h; simp at h
  | cons y ys ih =>
    intro i x hnd hg hjx hnt hmem
    simp only [itemIdsList] at hnd
    rw [List.nodup_append] at hnd
    simp only [touchedIdsList, List.mem_append] at hmem
    cases i with
    | zero =>
      simp only [List.get?_cons_zero, Option.some.injEq] at hg
      subst hg
      rcases hmem with h | h
      · exact hnt h
      · exact hnd.2.2 hjx (touchedIdsList_subset j ys h)
    | succ k =>
      simp only [List.get?_cons_succ] at hg
      rcases hmem with h | h
      · have hys : j ∈ itemIdsList ys :=
          mem_itemIdsList_of_mem (List.get?_mem hg) hjx
        exact hnd.2.2 (touchedIds_subset j y h) hys
      · exact ih k x hnd.2.1 hg hjx hnt h

/-- Under distinct node ids, an id strictly below an item that is unchecked is
not among the ids `updateChildren` visits. -/
theorem not_touched_below_unchecked :
    ∀ (q : List Nat) (it sub : Item), itemAt q it = some sub →
      sub.checked = false → (itemIds it).Nodup →
      ∀ j, j ∈ itemIdsList sub.children → j ∉ touchedIds it := by
  intro q
  induction q with
  | nil =>
    intro it sub h hun hnd j hj hmem
    simp only [itemAt, Option.some.injEq] at h
    subst h
    cases it with
    | mk n p nid pr chk en ch =>
      simp only [Item.checked] at hun
      subst hun
      simp only [Item.children] at hj
      simp only [touchedIds, if_neg (by simp : ¬ (false = true)),
        List.mem_cons, List.not_mem_nil, or_false] at hmem
      subst hmem
      simp only [itemIds, List.nodup_cons] at hnd
      exact hnd.1 hj
  | cons i rest ih =>
    intro it sub h hun hnd j hj hmem
    cases it with
    | mk n p nid pr chk en ch =>
      simp only [itemAt] at h
      cases hcg : (Item.children (Item.mk n p nid pr chk en ch)).get? i with
      | none => rw [hcg] at h; exact absurd h (by simp)
      | some x =>
        rw [hcg] at h
        simp only [Item.children] at hcg
        have hjsub : j ∈ itemIds sub := by
          cases sub with
          | mk n2 p2 nid2 pr2 chk2 en2 ch2 =>
            simp only [Item.children] at hj
            simp only [itemIds, List.mem_cons]
            exact Or.inr hj
        have hjx : j ∈ itemIds x := itemIds_of_itemAt rest x sub h j hjsub
        simp only [itemIds, List.nodup_cons] at hnd
        have hndch : (itemIdsList ch).Nodup := hnd.2
        simp only [touchedIds, List.mem_cons] at hmem
        rcases hmem with hjn | hmem
        · exact hnd.1 (hjn ▸ mem_itemIdsList_of_mem (List.get?_mem hcg) hjx)
        · cases chk with
          | false => simp at hmem
          | true =>
            simp only [if_pos rfl] at hmem
            have hntx : j ∉ touchedIds x :=
              ih x sub h hun (nodup_itemIds_get ch hndch i x hcg) j hj
            exact not_mem_touchedIdsList j ch i x hndch hcg hjx hntx hmem

/-- The propagation loop rewrites the child at index `i` as `updateChildren`
of the original child, for some intermediate store. -/
theorem updateChildrenList_get? (c : Bool) :
    ∀ (l : List Item) (i : Nat) (x : Item), l.get? i = some x →
      ∀ s : Store, ∃ s', ((updateChildrenList s l c).2).get? i =
        some ((updateChildren s' x c).2) := by
  intro l
  induction l with
  | nil => intro i x h _; simp at h
  | cons y ys ih =>
    intro i x h s
    cases i with
    | zero =>
      simp only [List.get?_cons_zero, Option.some.injEq] at h
      subst h
      exact ⟨s, rfl⟩
    | succ k =>
      simp only [List.get?_cons_succ] at h
      obtain ⟨s', hs'⟩ := ih k x h (updateChildren s y c).1
      exact ⟨s', hs'⟩

/-- Below an unchecked item nothing structural changes: the item found at the
same path after `updateChildren` has the same name, node id, prior mask,
checked state and (recursively identical) children. -/
theorem updateChildren_below_unchecked (c : Bool) :
    ∀ (q : List Nat) (it : Item) (s : Store) (sub : Item),
      itemAt q it = some sub → sub.checked = false →
      ∃ sub', itemAt q (updateChildren s it c).2 = some sub' ∧
        sub'.name = sub.name ∧ sub'.nodeId = sub.nodeId ∧
        sub'.prior = sub.prior ∧ sub'.checked = false ∧
        sub'.children = sub.children := by
  intro q
  induction q with
  | nil =>
    intro it s sub hq hun
    simp only [itemAt, Option.some.injEq] at hq
    subst hq
    cases it with
    | mk n p nid pr chk en ch =>
      simp only [Item.checked] at hun
      subst hun
      refine ⟨(updateChildren s (Item.mk n p nid pr false en ch) c).2, rfl,
        ?_, ?_, ?_, ?_, ?_⟩ <;>
        simp [updateChildren, Item.name, Item.nodeId, Item.prior,
          Item.checked, Item.children]
  | cons i rest ih =>
    intro it s sub hq hun
    cases it with
    | mk n p nid pr chk en ch =>
      simp only [itemAt] at hq
      cases hcg : (Item.children (Item.mk n p nid pr chk en ch)).get? i with
      | none => rw [hcg] at hq; exact absurd hq (by simp)
      | some x =>
        rw [hcg] at hq
        simp only [Item.children] at hcg
        cases chk with
        | false =>
          refine ⟨sub, ?_, rfl, rfl, rfl, hun, rfl⟩
          show itemAt (i :: rest)
            (updateChildren s (Item.mk n p nid pr false en ch) c).2 = some sub
          have hres : (updateChildren s (Item.mk n p nid pr false en ch)
              c).2.children = ch := by
            simp [updateChildren, Item.children]
          cases hr : (updateChildren s (Item.mk n p nid pr false en ch) c).2
            with
          | mk n2 p2 nid2 pr2 chk2 en2 ch2 =>
            have : ch2 = ch := by
              have := hres
              rw [hr] at this
              simpa [Item.children] using this
            subst this
            simp only [itemAt, Item.children, hcg]
            exact hq
        | true =>
          obtain ⟨s', hs'⟩ := updateChildrenList_get? c ch i x hcg s
          obtain ⟨sub', h1, h2, h3, h4, h5, h6⟩ := ih x s' sub hq hun
          refine ⟨sub', ?_, h2, h3, h4, h5, h6⟩
          have hres : (updateChildren s (Item.mk n p nid pr true en ch)
              c).2.children = (updateChildrenList s ch c).2 := by
            cases c <;> simp [updateChildren, Item.children]
          cases hr : (updateChildren s (Item.mk n p nid pr true en ch) c).2
            with
          | mk n2 p2 nid2 pr2 chk2 en2 ch2 =>
            have hch2 : ch2 = (updateChildrenList s ch c).2 := by
              have := hres
              rw [hr] at this
              simpa [Item.children] using this
            subst hch2
            simp only [itemAt, Item.children, hs']
            exact h1

/-- C10: `updateChildren` never recurses into the children of an unchecked
item: for any sub-item found at a child-index path that is unchecked, (a) the
sub-item's fields and entire child subtree are structurally unchanged (so in
particular the remembered prior mask of every item strictly below it is
unchanged), (b) under distinct node ids in the tree, the node mask of every
item strictly below the unchecked item is unchanged in the store, and (c) only
node ids of visited items — those reachable along chains of checked items,
including visited unchecked items themselves — can have their mask changed at
all. -/
theorem c10_no_recursion_below_unchecked (s : Store) (it : Item) (c : Bool)
    (q : List Nat) (sub : Item)
    (hq : itemAt q it = some sub) (hun : sub.checked = false) :
    (∃ sub', itemAt q (updateChildren s it c).2 = some sub' ∧
       sub'.name = sub.name ∧ sub'.nodeId = sub.nodeId ∧
       sub'.prior = sub.prior ∧ sub'.checked = false ∧
       sub'.children = sub.children) ∧
    ((itemIds it).Nodup → ∀ j, j ∈ itemIdsList sub.children →
       getMask (updateChildren s it c).1 j = getMask s j) ∧
    (∀ j, j ∉ touchedIds it →
       getMask (updateChildren s it c).1 j = getMask s j) := by
  refine ⟨updateChildren_below_unchecked c q it s sub hq hun, ?_, ?_⟩
  · intro hnd j hj
    exact updateChildren_frame c j it s
      (not_touched_below_unchecked q it sub hq hun hnd j hj)
  · intro j hj
    exact updateChildren_frame c j it s hj

/-- Witness for C10: an item (node 0, checked) with an unchecked child (node
1) holding a grandchild (node 2, mask 9): propagating a toggle leaves the
grandchild's node mask untouched. -/
theorem c10_no_recursion_below_unchecked_witness :
    getMask (updateChildren [⟨3, true, [1]⟩, ⟨5, true, [2]⟩, ⟨9, false, []⟩]
      (Item.mk ("p") ("p") 0 3 true true
        [Item.mk ("a") ("p::a") 1 5 false true
          [Item.mk ("b") ("p::a::b") 2 7 true true []]]) true).1 2 =
    getMask [⟨3, true, [1]⟩, ⟨5, true, [2]⟩, ⟨9, false, []⟩] 2 :=
  (c10_no_recursion_below_unchecked
    [⟨3, true, [1]⟩, ⟨5, true, [2]⟩, ⟨9, false, []⟩]
    (Item.mk ("p") ("p") 0 3 true true
      [Item.mk ("a") ("p::a") 1 5 false true
        [Item.mk ("b") ("p::a::b") 2 7 true true []]]) true [0]
    (Item.mk ("a") ("p::a") 1 5 false true
      [Item.mk ("b") ("p::a::b") 2 7 true true []])
    rfl rfl).2.1 (by decide) 2 (by decide)

/-! ## DisplayInterface: sequential model of the public operations -/

/-- The coordinator state visible to the public operations of
`DisplayInterface.cpp`: the `m_haveData` flag, whether the surface widget
exists (`m_pOsgWidget != nullptr`), and the tree-view contents.  The operation
bodies below mirror the source control flow; `setupOk` stands for the result
of `setupMainWindow()` (false models the "underlying GUI toolkit failed"
branch).  All operations are total functions — no exception escapes. -/
structure DIState where
  haveData : Bool
  osgUp : Bool
  store : Store
  root : Item

/-- `DisplayInterface::add(name, node, addToDisplay)` (DisplayInterface.cpp
49-72): set `m_haveData = true`, bail out resetting it if no window, else
delegate to the tree view with `showNode = true`. -/
def diAddNode (setupOk : Bool) (st : DIState) (name : String) (nid : Nat)
    (addToDisplay : Bool) : DIState × Bool :=
  let st1 := { st with haveData := true }
  if !setupOk then ({ st1 with haveData := false }, false)
  else
    let r := treeAdd st1.store name nid true addToDisplay st1.root
    ({ st1 with store := r.1, root := r.2.1 }, r.2.2)

/-- `DisplayInterface::add(key, func, description)` (76-96); `hr` is the
surface's `addKeyHandler` result. -/
def diAddKey (setupOk hr : Bool) (st : DIState) : DIState × Bool :=
  let st1 := { st with haveData := true }
  if !setupOk then ({ st1 with haveData := false }, false) else (st1, hr)

/-- `DisplayInterface::add(button, func, description)` (109-126); `hr` is the
surface's `addClickHandler` result. -/
def diAddMouse (setupOk hr : Bool) (st : DIState) : DIState × Bool :=
  let st1 := { st with haveData := true }
  if !setupOk then ({ st1 with haveData := false }, false) else (st1, hr)

/-- `DisplayInterface::add(func, description)` (130-146); `hr` is the
surface's `addMotionEventHandler` result. -/
def diAddMotion (setupOk hr : Bool) (st : DIState) : DIState × Bool :=
  let st1 := { st with haveData := true }
  if !setupOk then ({ st1 with haveData := false }, false) else (st1, hr)

/-- `DisplayInterface::track` (150-169): like the adds, then `trackNode` on
the surface (a collaborator call with no modelled state) and `return true`. -/
def diTrack (setupOk : Bool) (st : DIState) : DIState × Bool :=
  let st1 := { st with haveData := true }
  if !setupOk then ({ st1 with haveData := false }, false) else (st1, true)

/-- `DisplayInterface::lock` (195-207): note the source does NOT set
`m_haveData = true` first; on setup failure it still resets it to false and
returns false, else locks the surface and returns true. -/
def diLock (setupOk : Bool) (st : DIState) : DIState × Bool :=
  if !setupOk then ({ st with haveData := false }, false) else (st, true)

/-- `DisplayInterface::try_lock` (211-216); `r` is the surface's own
`try_lock` result. -/
def diTryLock (r : Bool) (st : DIState) : DIState × Bool :=
  if st.osgUp then (st, r) else (st, false)

/-- `DisplayInterface::unlock` (220-228). -/
def diUnlock (st : DIState) : DIState × Bool :=
  if st.osgUp then (st, true) else (st, false)

/-! ## Claim C6: failed setup means haveData reset, false return, no throw -/

/-- C6: for every operation that requires a window (the three handler-add
overloads, the node add, track, and lock), if `setupMainWindow()` fails to
produce a window (`setupOk = false`) the operation resets `haveData` to
false and returns false; the operations are total functions of the state
(the C++ bodies contain no throw on this path), so the failure is reported
as a boolean, never as an exception. -/
theorem c6_setup_failure_returns_false (st : DIState) (name : String)
    (nid : Nat) (ad hr : Bool) :
    diAddNode false st name nid ad = ({ st with haveData := false }, false) ∧
    diAddKey false hr st = ({ st with haveData := false }, false) ∧
    diAddMouse false hr st = ({ st with haveData := false }, false) ∧
    diAddMotion false hr st = ({ st with haveData := false }, false) ∧
    diTrack false st = ({ st with haveData := false }, false) ∧
    diLock false st = ({ st with haveData := false }, false) := by
  refine ⟨?_, ?_, ?_, ?_, ?_, ?_⟩ <;> rfl

/-! ## Claim C8: try_lock/unlock without a surface -/

/-- C8: when no surface widget exists yet, `try_lock` and `unlock` return
false with the coordinator state completely unchanged: neither calls
`setupMainWindow()` (their bodies never mention it), so they perform no
setup, no blocking and no mutation, and never trigger window construction. -/
theorem c8_trylock_unlock_no_surface (st : DIState) (r : Bool)
    (h : st.osgUp = false) :
    diTryLock r st = (st, false) ∧ diUnlock st = (st, false) := by
  constructor <;> simp [diTryLock, diUnlock, h]

/-- Witness for C8 at a concrete fresh state. -/
theorem c8_trylock_unlock_no_surface_witness :
    diTryLock true ⟨false, false, [], rootItem⟩ =
      (⟨false, false, [], rootItem⟩, false) :=
  (c8_trylock_unlock_no_surface ⟨false, false, [], rootItem⟩ true rfl).1

/-! ## DisplayInterface: interleaving model of the startup rendezvous

The constructor's display-thread lambda (DisplayInterface.cpp 290-375), the
destructor (380-401), and `setupMainWindow` plus a mutating caller such as
`track` (150-169, 405-421) are modelled as threads of an interleaving
transition system.  The mutex is a flag (a thread at a program counter inside
a critical section is its holder; acquisition requires the flag free);
condition-variable waiting is the `parked` program counter, and
`notify_all` moves every parked thread to a re-acquire counter.  A thread
parked on the condition variable has no step of its own: C++ guarantees
wakeups only through notification (spurious wakeups are permitted but not
guaranteed, so correctness cannot rely on them). -/

/-- Display-thread program counters (the lambda at DisplayInterface.cpp
290-375): acquire the mutex, check `haveData` (wait while false), check
`threadShouldRun`, construct window / surface widget / tree view, release,
set `setupComplete`, notify, then the steady event loop. -/
inductive DPc
  | acq | check | preWait | parked | reacq | run
  | mkWin | mkOsg | mkTree | rel | setDone | notifyStep | loop | relExit | done
deriving Repr, DecidableEq

/-- Destructor program counters (`~DisplayInterface`, 380-401): close the
window under the mutex if one exists, then (without the mutex) set
`haveData = true`, set `threadShouldRun = false`, notify if setup is not
complete, and join the display thread. -/
inductive XPc
  | start | acq | closeW | rel | setHD | setSR | notifyQ | join | done
deriving Repr, DecidableEq

/-- Caller program counters for a mutating operation (`track`, 150-169, via
`setupMainWindow`, 405-421): set `haveData = true`; the unsynchronized
`nullptr == m_pMainWindow` fast-path check; else lock, notify, wait until
`setupComplete`; then release and use the surface (`trackNode`). -/
inductive CPc
  | setHD | fast | acq | notifyStep | check | preWait | parked | reacq
  | rel | obs | done
deriving Repr, DecidableEq

/-- One caller thread: its program counter and whether its surface access
found the surface widget pointer still null. -/
structure CallerSt where
  pc : CPc
  sawNull : Bool
deriving Repr, DecidableEq

/-- The shared state: the startup mutex, the three coordination flags, the
constructed-component flags (`m_pMainWindow`, `m_pOsgWidget`, `m_pTreeView`
non-null), a count of window/surface/panel constructions, and the thread
program counters. -/
structure MState where
  mutexHeld : Bool
  haveData : Bool
  setupComplete : Bool
  shouldRun : Bool
  windowUp : Bool
  osgUp : Bool
  treeUp : Bool
  builds : Nat
  dpc : DPc
  xpc : XPc
  callers : List CallerSt
deriving Repr, DecidableEq

/-- `m_addNotify.notify_all()`: every thread parked on the condition variable
moves to its re-acquire counter. -/
def notifyAll (s : MState) : MState :=
  { s with
    dpc := if s.dpc = DPc.parked then DPc.reacq else s.dpc,
    callers := s.callers.map
      (fun c => if c.pc = CPc.parked then { c with pc := CPc.reacq } else c) }

/-- One step of the display thread (none = blocked or terminated). -/
def stepD (s : MState) : Option MState :=
  match s.dpc with
  | .acq =>
    if s.mutexHeld then none
    else some { s with mutexHeld := true, dpc := .check }
  | .check =>
    some { s with dpc := if s.haveData then .run else .preWait }
  | .preWait =>
    some { s with mutexHeld := false, dpc := .parked }
  | .parked => none
  | .reacq =>
    if s.mutexHeld then none
    else some { s with mutexHeld := true, dpc := .check }
  | .run =>
    some (if s.shouldRun then { s with dpc := .mkWin }
          else { s with dpc := .relExit })
  | .mkWin =>
    some { s with windowUp := true, builds := s.builds + 1, dpc := .mkOsg }
  | .mkOsg =>
    some { s with osgUp := true, dpc := .mkTree }
  | .mkTree =>
    some { s with treeUp := true, dpc := .rel }
  | .rel =>
    some { s with mutexHeld := false, dpc := .setDone }
  | .setDone =>
    some { s with setupComplete := true, dpc := .notifyStep }
  | .notifyStep =>
    some (notifyAll { s with dpc := .loop })
  | .loop =>
    some (if s.shouldRun then s else { s with dpc := .done })
  | .relExit =>
    some { s with mutexHeld := false, dpc := .done }
  | .done => none

/-- One step of the destructor thread. -/
def stepX (s : MState) : Option MState :=
  match s.xpc with
  | .start =>
    some { s with xpc := if s.windowUp then .acq else .setHD }
  | .acq =>
    if s.mutexHeld then none
    else some { s with mutexHeld := true, xpc := .closeW }
  | .closeW =>
    some { s with xpc := .rel }
  | .rel =>
    some { s with mutexHeld := false, xpc := .setHD }
  | .setHD =>
    some { s with haveData := true, xpc := .setSR }
  | .setSR =>
    some { s with shouldRun := false, xpc := .notifyQ }
  | .notifyQ =>
    some (if s.setupComplete then { s with xpc := .join }
          else notifyAll { s with xpc := .join })
  | .join =>
    if s.dpc = DPc.done then some { s with xpc := .done } else none
  | .done => none

/-- One step of caller `i`. -/
def stepC (s : MState) (i : Nat) : Option MState :=
  match s.callers.get? i with
  | none => none
  | some c =>
    match c.pc with
    | .setHD =>
      some { s with
        haveData := true,
        callers := s.callers.set i { c with pc := .fast } }
    | .fast =>
      some { s with
        callers := s.callers.set i
          { c with pc := if s.windowUp then .obs else .acq } }
    | .acq =>
      if s.mutexHeld then none
      else some { s with
        mutexHeld := true,
        callers := s.callers.set i { c with pc := .notifyStep } }
    | .notifyStep =>
      some (notifyAll { s with
        callers := s.callers.set i { c with pc := .check } })
    | .check =>
      some { s with
        callers := s.callers.set i
          { c with pc := if s.setupComplete then .rel else .preWait } }
    | .preWait =>
      some { s with
        mutexHeld := false,
        callers := s.callers.set i { c with pc := .parked } }
    | .parked => none
    | .reacq =>
      if s.mutexHeld then none
      else some { s with
        mutexHeld := true,
        callers := s.callers.set i { c with pc := .check } }
    | .rel =>
      some { s with
        mutexHeld := false,
        callers := s.callers.set i { c with pc := .obs } }
    | .obs =>
      some { s with
        callers := s.callers.set i { c with pc := .done, sawNull := !s.osgUp } }
    | .done => none

/-- Scheduling labels: which thread takes the next step. -/
inductive MLabel
  | disp | destr | caller (i : Nat)

def mstep (s : MState) : MLabel → Option MState
  | .disp => stepD s
  | .destr => stepX s
  | .caller i => stepC s i

/-- Run a schedule (none when a scheduled thread was blocked). -/
def mrun (s : MState) : List MLabel → Option MState
  | [] => some s
  | l :: ls =>
    match mstep s l with
    | some s' => mrun s' ls
    | none => none

/-- The initial state: fresh coordinator with `n` caller threads about to
invoke a mutating operation. -/
def minit (n : Nat) : MState :=
  { mutexHeld := false, haveData := false, setupComplete := false,
    shouldRun := true, windowUp := false, osgUp := false, treeUp := false,
    builds := 0, dpc := .acq, xpc := .start,
    callers := List.replicate n ⟨.setHD, false⟩ }

/-! ## Claim C4: the startup rendezvous and partial construction -/

/-- The state reached by the C4 schedule below. -/
def c4Final : MState :=
  { mutexHeld := true, haveData := true, setupComplete := false,
    shouldRun := true, windowUp := true, osgUp := false, treeUp := false,
    builds := 1, dpc := .mkOsg, xpc := .start,
    callers := [⟨.done, true⟩] }

/-- C4: the rendezvous does NOT ensure that no caller observes a
partially-constructed surface.  Schedule: a `track` caller sets
`m_haveData = true`; the display thread acquires the mutex, passes the
`haveData` and `threadShouldRun` checks and constructs the main window (only);
the caller then runs `setupMainWindow`'s unsynchronized
`nullptr == m_pMainWindow` fast path, sees the window pointer already set,
returns immediately without waiting for `m_setupComplete`, and dereferences
`m_pOsgWidget` while it is still null (`sawNull = true` below) — during
construction (`setupComplete = false`, exactly one construction started).
This refutes the claim's "no caller observes a partially-constructed surface
or panel"; the other conjuncts (haveData before waiting, single construction,
completion signalled only after construction) are not at issue in this
schedule. -/
theorem c4_partial_construction_trace :
    mrun (minit 1) [.caller 0, .disp, .disp, .disp, .disp, .caller 0,
      .caller 0] = some c4Final ∧
    c4Final.callers.map CallerSt.sawNull = [true] ∧
    c4Final.osgUp = false ∧
    c4Final.windowUp = true ∧
    c4Final.setupComplete = false ∧
    c4Final.builds = 1 :=
  ⟨rfl, rfl, rfl, rfl, rfl, rfl⟩

/-! ## Claim C7: teardown and the lost wakeup -/

/-- The state reached by the C7 schedule below. -/
def c7Final : MState :=
  { mutexHeld := false, haveData := true, setupComplete := false,
    shouldRun := false, windowUp := false, osgUp := false, treeUp := false,
    builds := 0, dpc := .parked, xpc := .join, callers := [] }

/-- C7: destruction before any mutating call CAN deadlock.  Schedule: the
display thread acquires `m_mutex` and evaluates `not m_haveData` (true), but
has not yet called `wait`; the destructor — which takes no lock on this path,
since no window exists — sets `m_haveData = true` and
`m_threadShouldRun = false` and calls `notify_all`, which finds no waiter;
the display thread then parks on the condition variable.  In the resulting
state the display thread is parked with no notification ever to come and the
destructor is blocked in `join`: no thread has an enabled step, so the
destructor never returns — refuting "destruction never deadlocks".  (The
claim's described good path — the signal arriving while the thread is parked —
does behave as stated; the refutation is this in-between window.) -/
theorem c7_teardown_lost_wakeup_trace :
    mrun (minit 0) [.disp, .disp, .destr, .destr, .destr, .destr, .disp] =
      some c7Final ∧
    c7Final.dpc = DPc.parked ∧
    c7Final.xpc = XPc.join ∧
    c7Final.haveData = true ∧
    c7Final.shouldRun = false ∧
    (∀ l, mstep c7Final l = none) := by
  refine ⟨rfl, rfl, rfl, rfl, rfl, ?_⟩
  intro l
  cases l with
  | disp => rfl
  | destr => rfl
  | caller i => rfl
